import Mathlib

/-!
# Verification of the HELICS typed value interface subsystem (Inputs.hpp)

A shallow embedding of the `helics::Input` class from
`src/helics/application_api/Inputs.hpp`, together with spec-modelled
definitions for the collaborators whose bodies are not part of the visible
source (the tagged-value conversion rules, the change detector, the unit
bridge, and the lazy source-information loader).

Doubles are modelled as rationals (`Rat`): none of the verified properties
depend on floating-point rounding.  A raw byte buffer is represented by the
primary value it decodes to, since the codec is specified as a bijection
(`decode(encode(v)) == v`).
-/

namespace Helics

/-- Modelled from the spec: the nine primary value types (spec section 3),
in their serialized order. -/
inductive PrimaryType
  | pDouble
  | pInt
  | pString
  | pComplex
  | pVector
  | pComplexVector
  | pNamedPoint
  | pBool
  | pTime
deriving DecidableEq, Repr

/-- A named point: a string plus a double (spec section 3, type index 6). -/
structure NamedPoint where
  name : String
  value : Rat
deriving DecidableEq, Repr

/-- The tagged-value container `defV`: exactly one primary variant and its
payload (Inputs.hpp stores one in the `lastValue` member). -/
inductive defV
  | D (x : Rat)
  | I (n : Int)
  | S (s : String)
  | C (re im : Rat)
  | V (v : List Rat)
  | CV (v : List (Rat × Rat))
  | NP (np : NamedPoint)
  | B (b : Bool)
  | T (t : Rat)
deriving DecidableEq, Repr

/-- The tag of the inhabited variant of a tagged value. -/
def tagOf : defV → PrimaryType
  | .D _ => .pDouble
  | .I _ => .pInt
  | .S _ => .pString
  | .C _ _ => .pComplex
  | .V _ => .pVector
  | .CV _ => .pComplexVector
  | .NP _ => .pNamedPoint
  | .B _ => .pBool
  | .T _ => .pTime

/-- The `data_type` enumeration restricted to what the embedded operations
inspect: a known primary type, `helics_unknown`, or `helics_custom`. -/
inductive DataType
  | dt (pt : PrimaryType)
  | unknown
  | custom
deriving DecidableEq, Repr

/-- The `multi_input_mode` enumeration from Inputs.hpp. -/
inductive MultiInputMode
  | no_op
  | and_operation
  | or_operation
  | sum_operation
  | diff_operation
  | max_operation
  | min_operation
  | average_operation
  | vectorize_operation
deriving DecidableEq, Repr

/-- Modelled from the spec: a parsed precise unit, reduced to the data the
unit bridge needs (spec section 4.3): a linear scale and offset against a
base unit, and a dimension identifier (commensurable iff equal). -/
structure PreciseUnit where
  scale : Rat
  offset : Rat
  dim : Nat
deriving DecidableEq, Repr

/-! ## Arithmetic helpers for the conversion rules -/

/-- Absolute value on the rational model of doubles. -/
def ratAbs (x : Rat) : Rat := if x < 0 then -x else x

/-- Floor of a rational as an integer. -/
def ratFloorZ (x : Rat) : Int := Int.fdiv x.num (x.den : Int)

/-- Truncation toward zero, the C++ double-to-integer narrowing. -/
def ratTrunc (x : Rat) : Int :=
  if 0 ≤ x then ratFloorZ x else -ratFloorZ (-x)

/-- Saturation to the signed 64-bit range (spec section 4.1: out-of-range
integers saturate to the destination min/max). -/
def satToI64 (n : Int) : Int :=
  max (-(2 ^ 63)) (min (2 ^ 63 - 1) n)

/-- Round half to even (spec section 4.3: integer values are converted via
double and rounded half-to-even when stored back to an integer). -/
def roundHalfEven (x : Rat) : Int :=
  let f := ratFloorZ x
  let r := x - (f : Rat)
  if r < 1 / 2 then f
  else if 1 / 2 < r then f + 1
  else if f % 2 = 0 then f else f + 1

/-- Accumulate a digit string into a natural number; fails on a non-digit. -/
def digitsToNat (cs : List Char) : Option Nat :=
  cs.foldl
    (fun acc c =>
      match acc with
      | none => none
      | some n => if c.isDigit then some (n * 10 + (c.toNat - 48)) else none)
    (some 0)

/-- Modelled from the spec: parsing a decimal numeral from a string
(spec section 4.1, string to numeric: parse; on failure, zero). -/
def parseRat (str : String) : Option Rat :=
  let cs := str.toList
  let signed : Bool × List Char :=
    match cs with
    | '-' :: rest => (true, rest)
    | '+' :: rest => (false, rest)
    | _ => (false, cs)
  let neg := signed.1
  let body := signed.2
  let ip := body.takeWhile Char.isDigit
  let rest := body.dropWhile Char.isDigit
  match rest with
  | [] =>
    if ip.isEmpty then none
    else (digitsToNat ip).map fun n => if neg then -(n : Rat) else (n : Rat)
  | '.' :: fp =>
    if fp.all Char.isDigit && !(ip.isEmpty && fp.isEmpty) then
      match digitsToNat ip, digitsToNat fp with
      | some i, some f =>
        let mag : Rat := (i : Rat) + (f : Rat) / ((10 : Rat) ^ fp.length)
        some (if neg then -mag else mag)
      | _, _ => none
    else none
  | _ => none

/-- Lowercase a string character by character. -/
def lowerStr (s : String) : String := String.mk (s.toList.map Char.toLower)

/-- Rendering of a rational in the string conversions; stands for the
canonical decimal form of the spec (section 4.1), which no claim inspects. -/
def ratStr (x : Rat) : String := toString x.num ++ "/" ++ toString x.den

/-! ## Modelled from the spec: the tagged-value conversion rules (section 4.1) -/

/-- Modelled from the spec: the numeric (double) reading of a tagged value
(section 4.1: complex to double takes the real part, vector to scalar takes
element 0 or zero if empty, named point to double takes the numeric field,
boolean to numeric is 0/1, string to numeric parses with zero on failure). -/
def toDouble : defV → Rat
  | .D x => x
  | .I n => (n : Rat)
  | .S s => (parseRat s).getD 0
  | .C re _ => re
  | .V v => v.headD 0
  | .CV v => ((v.headD (0, 0)).1)
  | .NP np => np.value
  | .B b => if b then 1 else 0
  | .T t => t

/-- Modelled from the spec: the integer reading of a tagged value, with
saturating narrowing from the double reading (section 4.1). -/
def toInt (v : defV) : Int :=
  match v with
  | .I n => n
  | .B b => if b then 1 else 0
  | _ => satToI64 (ratTrunc (toDouble v))

/-- Modelled from the spec: the string form of a tagged value.  A named
point yields its string field and never its numeric field (section 4.1). -/
def toStr : defV → String
  | .D x => ratStr x
  | .I n => toString n
  | .S s => s
  | .C re im => ratStr re ++ "+" ++ ratStr im ++ "j"
  | .V v => String.intercalate "," (v.map ratStr)
  | .CV v => String.intercalate "," (v.map fun p => ratStr p.1 ++ "+" ++ ratStr p.2 ++ "j")
  | .NP np => np.name
  | .B b => if b then "true" else "false"
  | .T t => ratStr t

/-- Modelled from the spec: the boolean reading of a tagged value
(section 4.1: from a string, the sets true/1/on versus false/0/off,
case-insensitive, other strings yield false; from a numeric, nonzero). -/
def toBool (v : defV) : Bool :=
  match v with
  | .B b => b
  | .S s => decide (lowerStr s ∈ ["true", "1", "on"])
  | _ => decide (toDouble v ≠ 0)

/-- Modelled from the spec: the complex reading of a tagged value
(section 4.1: double is the real part, imaginary zero when widening). -/
def complexOf (v : defV) : Rat × Rat :=
  match v with
  | .C re im => (re, im)
  | .CV l => l.headD (0, 0)
  | _ => (toDouble v, 0)

/-- Modelled from the spec: the double-vector reading of a tagged value
(section 4.1: a scalar widens to a one-element vector). -/
def vecOf (v : defV) : List Rat :=
  match v with
  | .V l => l
  | .C re im => [re, im]
  | .CV l => l.map Prod.fst
  | _ => [toDouble v]

/-- Modelled from the spec: the complex-vector reading of a tagged value. -/
def cvecOf (v : defV) : List (Rat × Rat) :=
  match v with
  | .CV l => l
  | .C re im => [(re, im)]
  | .V l => l.map fun x => (x, 0)
  | _ => [(toDouble v, 0)]

/-- Modelled from the spec: the named-point reading of a tagged value
(section 4.1: from a string, the string field; from a numeric, the numeric
field). -/
def npOf (v : defV) : NamedPoint :=
  match v with
  | .NP np => np
  | .S s => ⟨s, 0⟩
  | _ => ⟨"", toDouble v⟩

/-- Conversion of a tagged value to a requested tag, ignoring the no-op
shortcut.  Each arm constructs the requested variant. -/
def convertTo (v : defV) : PrimaryType → defV
  | .pDouble => .D (toDouble v)
  | .pInt => .I (toInt v)
  | .pString => .S (toStr v)
  | .pComplex => .C (complexOf v).1 (complexOf v).2
  | .pVector => .V (vecOf v)
  | .pComplexVector => .CV (cvecOf v)
  | .pNamedPoint => .NP (npOf v)
  | .pBool => .B (toBool v)
  | .pTime => .T (toDouble v)

/-- Modelled from the spec: `valueConvert`, in-place conversion between
primary types (section 4.1); when the stored tag already matches the
requested tag the conversion is a no-op (its body is not in the visible
source). -/
def valueConvert (v : defV) (pt : PrimaryType) : defV :=
  if tagOf v = pt then v else convertTo v pt

/-- Modelled from the spec: `valueExtract` of a tagged value into a primary
destination type; at the tagged-value level extraction to the primary type
X is conversion to X's tag (its body is not in the visible source). -/
def valueExtract (v : defV) (pt : PrimaryType) : defV := valueConvert v pt

/-- The converted tag is the requested tag. -/
theorem tagOf_valueConvert (v : defV) (pt : PrimaryType) :
    tagOf (valueConvert v pt) = pt := by
  unfold valueConvert
  split
  · assumption
  · cases pt <;> rfl

/-- Conversion is a no-op when the tag already matches. -/
theorem valueConvert_of_tag_eq {v : defV} {pt : PrimaryType} (h : tagOf v = pt) :
    valueConvert v pt = v := by
  simp [valueConvert, h]

/-! ## Modelled from the spec: the change detector (section 4.4) -/

/-- L-infinity comparison of two double vectors against a delta; length
mismatch counts as a change. -/
def vecChanged (a b : List Rat) (d : Rat) : Bool :=
  decide (a.length ≠ b.length) ||
    (a.zip b).any fun p => decide (d < ratAbs (p.2 - p.1))

/-- L-infinity comparison of two complex vectors against a delta. -/
def cvecChanged (a b : List (Rat × Rat)) (d : Rat) : Bool :=
  decide (a.length ≠ b.length) ||
    (a.zip b).any fun p =>
      decide (d < ratAbs (p.2.1 - p.1.1)) || decide (d < ratAbs (p.2.2 - p.1.2))

/-- Modelled from the spec: `changeDetected(previous, candidate, delta)`
(section 4.4).  Differing tags always change; numeric scalars compare
absolute difference strictly against the delta; complex and vector values
compare the L-infinity distance; strings, named points and booleans compare
for inequality, ignoring the delta (its body is not in the visible
source). -/
def changeDetected (p v : defV) (d : Rat) : Bool :=
  if tagOf p ≠ tagOf v then true
  else
    match p, v with
    | .D a, .D b => decide (d < ratAbs (b - a))
    | .I a, .I b => decide (d < ratAbs ((b : Rat) - (a : Rat)))
    | .T a, .T b => decide (d < ratAbs (b - a))
    | .S a, .S b => decide (a ≠ b)
    | .NP a, .NP b => decide (a ≠ b)
    | .B a, .B b => decide (a ≠ b)
    | .C ar ai, .C br bi =>
      decide (d < ratAbs (br - ar)) || decide (d < ratAbs (bi - ai))
    | .V a, .V b => vecChanged a b d
    | .CV a, .CV b => cvecChanged a b d
    | _, _ => true

/-! ## Modelled from the spec: the unit bridge (section 4.3) -/

/-- Modelled from the spec: conversion of a scalar between an optional input
unit and an optional output unit (section 4.3): identity when either unit is
absent, otherwise the linear map through the common base unit. -/
def unitConvert (x : Rat) : Option PreciseUnit → Option PreciseUnit → Rat
  | some u, some w => (u.scale * x + u.offset - w.offset) / w.scale
  | _, _ => x

/-- Modelled from the spec: `doubleExtractAndConvert`, declared in
Inputs.hpp: extract a double from the raw buffer and apply the unit bridge
(section 4.3).  The raw buffer is represented by its decoded value. -/
def doubleExtractAndConvert (dv : defV)
    (inputUnits outputUnits : Option PreciseUnit) : Rat :=
  unitConvert (toDouble dv) inputUnits outputUnits

/-- Modelled from the spec: `integerExtractAndConvert`, declared in
Inputs.hpp: extract an integer from the raw buffer; when both units are
present convert via double and round half to even, saturating to the 64-bit
range (section 4.3). -/
def integerExtractAndConvert (dv : defV)
    (inputUnits outputUnits : Option PreciseUnit) : defV :=
  match inputUnits, outputUnits with
  | some u, some w =>
    .I (satToI64 (roundHalfEven (unitConvert (toInt dv : Rat) (some u) (some w))))
  | _, _ => .I (toInt dv)

/-! ## The Input object state -/

/-- The state of one `helics::Input`, restricted to the members the embedded
operations read or write, together with the federate core's view of this
input (`fedIsUpdated`, the pending raw buffer represented by its decoded
value, and the lazily loaded source information). -/
structure InputState where
  targetType : DataType
  injectionType : DataType
  changeDetectionEnabled : Bool
  hasUpdate : Bool
  inputVectorOp : MultiInputMode
  lastValue : defV
  outputUnits : Option PreciseUnit
  inputUnits : Option PreciseUnit
  delta : Rat
  fedIsUpdated : Bool
  pendingRaw : defV
  sourceType : DataType
  sourceUnits : Option PreciseUnit
deriving DecidableEq, Repr

/-- The default-constructed `Input`, from the member initializers in
Inputs.hpp (`changeDetectionEnabled{false}`, `hasUpdate{false}`,
`inputVectorOp{no_op}`, `delta{-1.0}`, unknown types, no units, and a
default-constructed `defV` holding the first variant, a zero double). -/
def defaultInputState : InputState where
  targetType := .unknown
  injectionType := .unknown
  changeDetectionEnabled := false
  hasUpdate := false
  inputVectorOp := .no_op
  lastValue := .D 0
  outputUnits := none
  inputUnits := none
  delta := -1
  fedIsUpdated := false
  pendingRaw := .D 0
  sourceType := .unknown
  sourceUnits := none

/-- `Input::allowDirectFederateUpdate` from Inputs.hpp. -/
def allowDirectFederateUpdate (s : InputState) : Bool :=
  s.hasUpdate && !s.changeDetectionEnabled &&
    decide (s.inputVectorOp = MultiInputMode.no_op)

/-- `Input::setMinimumChange(deltaV)` from Inputs.hpp: the first check
enables change detection if it was disabled via a negative delta, the delta
is assigned, and the second check disables detection on a negative delta. -/
def setMinimumChange (deltaV : Rat) (s : InputState) : InputState :=
  let s1 := if s.delta < 0 then { s with changeDetectionEnabled := true } else s
  let s2 := { s1 with delta := deltaV }
  if s2.delta < 0 then { s2 with changeDetectionEnabled := false } else s2

/-- `Input::enableChangeDetection(enabled)` from Inputs.hpp. -/
def enableChangeDetection (enabled : Bool) (s : InputState) : InputState :=
  { s with changeDetectionEnabled := enabled }

/-- Modelled from the spec: `Input::loadSourceInformation`, whose body is
not in the visible source: lazily loads the injection type and the input
units from the core the first time a value arrives (spec section 4.6 step 2
and the design notes).  The callers in Inputs.hpp guard the call with
`injectionType == helics_unknown`; the guard is part of this definition so
the call sites read as in the source. -/
def loadSourceInfo (s : InputState) : InputState :=
  if s.injectionType = DataType.unknown then
    { s with injectionType := s.sourceType, inputUnits := s.sourceUnits }
  else s

/-- Decoding of the pending raw buffer to the destination primary type, as
performed by the updated branch of `Input::getValue_impl` and the
change-detection branch of `Input::getValueRef`: a double injection goes
through `doubleExtractAndConvert`, an integer injection through
`integerExtractAndConvert`, anything else is extracted at the injection
type; the result is then extracted to the destination type. -/
def decodePending (pt : PrimaryType) (s : InputState) : defV :=
  if s.injectionType = DataType.dt .pDouble then
    valueExtract (.D (doubleExtractAndConvert s.pendingRaw s.inputUnits s.outputUnits)) pt
  else if s.injectionType = DataType.dt .pInt then
    valueExtract (integerExtractAndConvert s.pendingRaw s.inputUnits s.outputUnits) pt
  else
    valueExtract s.pendingRaw pt

/-- The body of `Input::getValue_impl` for a primary destination type,
before the trailing `hasUpdate = false` assignment.  `loadSourceInfo s`
appears inline where the source reads the loaded state. -/
def getValueCore (pt : PrimaryType) (s : InputState) : defV × InputState :=
  if s.fedIsUpdated || allowDirectFederateUpdate s then
    if (loadSourceInfo s).changeDetectionEnabled then
      if changeDetected (loadSourceInfo s).lastValue
          (decodePending pt (loadSourceInfo s)) (loadSourceInfo s).delta then
        (decodePending pt (loadSourceInfo s),
         { loadSourceInfo s with lastValue := decodePending pt (loadSourceInfo s) })
      else
        (valueExtract (loadSourceInfo s).lastValue pt, loadSourceInfo s)
    else
      (decodePending pt (loadSourceInfo s),
       { loadSourceInfo s with lastValue := decodePending pt (loadSourceInfo s) })
  else
    (valueExtract s.lastValue pt, s)

/-- `Input::getValue_impl` for a primary destination type (Inputs.hpp,
template over X; here X is represented by its primary tag): the update
branch decodes, bridges units for double and integer injections, runs change
detection, and the function unconditionally clears `hasUpdate` before
returning. -/
def getValue_impl (pt : PrimaryType) (s : InputState) : defV × InputState :=
  ((getValueCore pt s).1, { (getValueCore pt s).2 with hasUpdate := false })

/-- `getValueRefImpl<X>` from Inputs.hpp: convert the stored tagged value in
place to X's tag and return a borrowed view of it; the specialization for
strings returns the name field of a named point without converting it.
The result is the pair (returned view, stored value after the call). -/
def getValueRefImpl (pt : PrimaryType) (v : defV) : defV × defV :=
  match pt, v with
  | .pString, .NP np => (.S np.name, .NP np)
  | p, w => (valueConvert w p, valueConvert w p)

/-- The update logic of `Input::getValueRef` (Inputs.hpp), before the final
`getValueRefImpl` call: with change detection enabled the pending buffer is
decoded and bridged and `lastValue` is replaced only on a detected change;
with it disabled the raw buffer is extracted directly into `lastValue`
without the unit bridge; with no update pending nothing happens. -/
def getValueRefCore (pt : PrimaryType) (s : InputState) : InputState :=
  if s.fedIsUpdated || allowDirectFederateUpdate s then
    if (loadSourceInfo s).changeDetectionEnabled then
      if changeDetected (loadSourceInfo s).lastValue
          (decodePending pt (loadSourceInfo s)) (loadSourceInfo s).delta then
        { loadSourceInfo s with lastValue := decodePending pt (loadSourceInfo s) }
      else loadSourceInfo s
    else
      { loadSourceInfo s with lastValue := (loadSourceInfo s).pendingRaw }
  else s

/-- `Input::getValueRef<X>` from Inputs.hpp: run the update logic, then
convert the stored value in place and return the borrowed view.  It never
touches `hasUpdate`. -/
def getValueRef (pt : PrimaryType) (s : InputState) : defV × InputState :=
  let s1 := getValueRefCore pt s
  ((getValueRefImpl pt s1.lastValue).1,
   { s1 with lastValue := (getValueRefImpl pt s1.lastValue).2 })

/-- `InputT<X>::handleCallback(time)` from Inputs.hpp: read the value with
`Input::getValue` (which performs the decode and the `lastValue` update),
then invoke the typed callback with the freshly read value and the time.
The result is the (argument pair handed to the callback, state in which the
callback body runs). -/
def handleCallback (pt : PrimaryType) (s : InputState) (t : Rat) :
    (defV × Rat) × InputState :=
  (((getValue_impl pt s).1, t), (getValue_impl pt s).2)

/-- The guard lambda installed by `Input::registerNotificationCallback`
(Inputs.hpp): at the dispatch point it calls the user callback with the
update time exactly when `isUpdated()` reports true; the user callback
receives the time and nothing else.  `none` models the callback not being
invoked. -/
def registerNotificationWrapper {α : Type} (callback : Rat → α)
    (isUpdatedNow : Bool) (time : Rat) : Option α :=
  if isUpdatedNow then some (callback time) else none

/-- The kinds of per-input callbacks dispatched in one cycle. -/
inductive CallbackKind
  | typed
  | notify
deriving DecidableEq, Repr

/-- Modelled from the spec: the Value-Federate Manager's per-input callback
dispatch for one cycle; neither the manager nor
`ValueFederate::setInputNotificationCallback` is in the visible source.
Spec sections 4.6 and 5: when the update is observable the installed typed
callback fires, and the notification callback runs after any typed callback
for the same input in the same cycle. -/
def dispatchInputCycle (hasTypedCb hasNotifyCb updObservable : Bool) :
    List CallbackKind :=
  if updObservable then
    (if hasTypedCb then [CallbackKind.typed] else []) ++
      (if hasNotifyCb then [CallbackKind.notify] else [])
  else []

/-- Configuration calls for the change-detection state (claim C4). -/
inductive ConfigOp
  | setMin (d : Rat)
  | enable (b : Bool)
deriving DecidableEq, Repr

/-- Apply one configuration call to an input state. -/
def applyConfigOp (s : InputState) : ConfigOp → InputState
  | .setMin d => setMinimumChange d s
  | .enable b => enableChangeDetection b s

/-- The value the pending publication decodes to for a destination type,
after the lazy source-information load; this is the candidate handed to the
change detector in both read paths. -/
def decodedCandidate (pt : PrimaryType) (s : InputState) : defV :=
  decodePending pt (loadSourceInfo s)

/-! ## Helper lemmas -/

@[simp] theorem loadSourceInfo_hasUpdate (s : InputState) :
    (loadSourceInfo s).hasUpdate = s.hasUpdate := by
  unfold loadSourceInfo; split <;> rfl

@[simp] theorem loadSourceInfo_changeDetectionEnabled (s : InputState) :
    (loadSourceInfo s).changeDetectionEnabled = s.changeDetectionEnabled := by
  unfold loadSourceInfo; split <;> rfl

@[simp] theorem loadSourceInfo_lastValue (s : InputState) :
    (loadSourceInfo s).lastValue = s.lastValue := by
  unfold loadSourceInfo; split <;> rfl

@[simp] theorem loadSourceInfo_delta (s : InputState) :
    (loadSourceInfo s).delta = s.delta := by
  unfold loadSourceInfo; split <;> rfl

@[simp] theorem loadSourceInfo_fedIsUpdated (s : InputState) :
    (loadSourceInfo s).fedIsUpdated = s.fedIsUpdated := by
  unfold loadSourceInfo; split <;> rfl

@[simp] theorem loadSourceInfo_pendingRaw (s : InputState) :
    (loadSourceInfo s).pendingRaw = s.pendingRaw := by
  unfold loadSourceInfo; split <;> rfl

@[simp] theorem loadSourceInfo_inputVectorOp (s : InputState) :
    (loadSourceInfo s).inputVectorOp = s.inputVectorOp := by
  unfold loadSourceInfo; split <;> rfl

@[simp] theorem loadSourceInfo_sourceType (s : InputState) :
    (loadSourceInfo s).sourceType = s.sourceType := by
  unfold loadSourceInfo; split <;> rfl

@[simp] theorem loadSourceInfo_sourceUnits (s : InputState) :
    (loadSourceInfo s).sourceUnits = s.sourceUnits := by
  unfold loadSourceInfo; split <;> rfl

@[simp] theorem loadSourceInfo_outputUnits (s : InputState) :
    (loadSourceInfo s).outputUnits = s.outputUnits := by
  unfold loadSourceInfo; split <;> rfl

/-- The source-information load is the identity on a state that is already
consistent with its source information. -/
theorem loadSourceInfo_eq_self {u : InputState}
    (h : u.injectionType = DataType.unknown →
      u.sourceType = u.injectionType ∧ u.sourceUnits = u.inputUnits) :
    loadSourceInfo u = u := by
  unfold loadSourceInfo
  split
  · next hinj =>
      obtain ⟨h2, h3⟩ := h hinj
      cases u
      simp_all
  · rfl

/-- After one load, a state is consistent with its source information. -/
theorem loadSourceInfo_loaded (s : InputState) :
    (loadSourceInfo s).injectionType = DataType.unknown →
      (loadSourceInfo s).sourceType = (loadSourceInfo s).injectionType ∧
      (loadSourceInfo s).sourceUnits = (loadSourceInfo s).inputUnits := by
  unfold loadSourceInfo
  split
  · intro _; exact ⟨rfl, rfl⟩
  · next hne => intro h; exact absurd h hne

/-- The decoded candidate always carries the destination tag. -/
theorem tagOf_decodePending (pt : PrimaryType) (s : InputState) :
    tagOf (decodePending pt s) = pt := by
  unfold decodePending valueExtract
  split
  · exact tagOf_valueConvert _ _
  · split <;> exact tagOf_valueConvert _ _

/-- The borrowed view returned by `getValueRefImpl` is the section 4.1
conversion of the stored value (for a named point read as a string, both
give the name field). -/
theorem getValueRefImpl_fst (pt : PrimaryType) (v : defV) :
    (getValueRefImpl pt v).1 = valueConvert v pt := by
  cases pt <;> cases v <;> rfl

/-- After `getValueRefImpl`, the stored value carries the requested tag,
except in the string-of-named-point case which leaves the named point. -/
theorem getValueRefImpl_tag (pt : PrimaryType) (v : defV) :
    tagOf (getValueRefImpl pt v).2 = pt ∨
      (pt = PrimaryType.pString ∧
        tagOf (getValueRefImpl pt v).2 = PrimaryType.pNamedPoint) := by
  cases pt <;> cases v <;>
    first
      | exact Or.inr ⟨rfl, rfl⟩
      | exact Or.inl (tagOf_valueConvert _ _)
      | simp [getValueRefImpl, tagOf_valueConvert]

/-- The update phase of `getValueRef` does not touch `hasUpdate`. -/
theorem getValueRefCore_hasUpdate (pt : PrimaryType) (s : InputState) :
    (getValueRefCore pt s).hasUpdate = s.hasUpdate := by
  unfold getValueRefCore
  split
  · split
    · split <;> simp
    · simp
  · rfl

/-- Decoding ignores the `lastValue` and `hasUpdate` fields. -/
theorem decodePending_stable (pt : PrimaryType) (s : InputState) (v : defV)
    (b : Bool) :
    decodePending pt { s with lastValue := v, hasUpdate := b } =
      decodePending pt s := rfl

/-- A loaded state stays loaded after updating `lastValue` and
`hasUpdate`. -/
theorem loadSourceInfo_stable (s : InputState) (v : defV) (b : Bool) :
    loadSourceInfo { loadSourceInfo s with lastValue := v, hasUpdate := b } =
      { loadSourceInfo s with lastValue := v, hasUpdate := b } :=
  loadSourceInfo_eq_self fun h => loadSourceInfo_loaded s h

/-- A state whose injection type is a known data type loads to itself. -/
theorem loadSourceInfo_of_known {s : InputState} {pt0 : PrimaryType}
    (h : s.injectionType = DataType.dt pt0) : loadSourceInfo s = s := by
  apply loadSourceInfo_eq_self
  intro hu
  rw [h] at hu
  exact absurd hu (by simp)

/-- A value tagged double is a double. -/
theorem eq_D_of_tag {v : defV} (h : tagOf v = PrimaryType.pDouble) :
    ∃ x, v = defV.D x := by
  cases v <;> simp_all [tagOf]

/-- A value tagged integer is an integer. -/
theorem eq_I_of_tag {v : defV} (h : tagOf v = PrimaryType.pInt) :
    ∃ n, v = defV.I n := by
  cases v <;> simp_all [tagOf]

/-! ## Claim C2: setMinimumChange -/

/-- A prior state with change detection disabled but a non-negative stored
delta, reachable from the default state by `setMinimumChange(1)` followed by
`enableChangeDetection(false)`. -/
def c2PriorState : InputState :=
  enableChangeDetection false (setMinimumChange 1 defaultInputState)

/-- C2 counterexample: calling set-minimum-change with d = 2 >= 0 on an
input whose detection was disabled by enableChangeDetection(false) while its
stored delta was non-negative leaves change detection DISABLED, refuting the
claim that d >= 0 always leaves it enabled regardless of prior state. -/
theorem C2_counterexample :
    (0 : Rat) ≤ 2 ∧
      (setMinimumChange 2 c2PriorState).changeDetectionEnabled = false := by
  exact ⟨by decide, by decide⟩

/-- Characterization of setMinimumChange: the delta is stored; d < 0 ends
with detection disabled; d >= 0 ends with detection enabled exactly when it
already was enabled or the previously stored delta was negative. -/
theorem setMinimumChange_spec (d : Rat) (s : InputState) :
    (setMinimumChange d s).delta = d ∧
    (d < 0 → (setMinimumChange d s).changeDetectionEnabled = false) ∧
    (0 ≤ d → (setMinimumChange d s).changeDetectionEnabled =
      (s.changeDetectionEnabled || decide (s.delta < 0))) := by
  refine ⟨?_, ?_, ?_⟩
  · unfold setMinimumChange
    by_cases h1 : s.delta < 0 <;> by_cases h2 : d < 0 <;> simp [h1, h2]
  · intro hd
    unfold setMinimumChange
    by_cases h1 : s.delta < 0 <;> simp [h1, hd]
  · intro hd
    have h2 : ¬d < 0 := not_lt.mpr hd
    unfold setMinimumChange
    by_cases h1 : s.delta < 0 <;> simp [h1, h2]

/-- C2 (amended): setMinimumChange(d) stores d as the delta; if d < 0 it
ends with change detection disabled; if d >= 0 it ends with change detection
enabled exactly when detection was already enabled or the previously stored
delta was negative (the first check in the source only re-enables detection
that was disabled via a negative delta). -/
theorem C2_setMinimumChange_amended (d : Rat) (s : InputState) :
    (setMinimumChange d s).delta = d ∧
    (d < 0 → (setMinimumChange d s).changeDetectionEnabled = false) ∧
    (0 ≤ d → (setMinimumChange d s).changeDetectionEnabled =
      (s.changeDetectionEnabled || decide (s.delta < 0))) :=
  setMinimumChange_spec d s

/-- C2 witness: the amended statement evaluated on the concrete
counterexample state. -/
theorem C2_amended_witness :
    (setMinimumChange 2 c2PriorState).delta = 2 ∧
      (setMinimumChange 2 c2PriorState).changeDetectionEnabled = false := by
  refine ⟨(C2_setMinimumChange_amended 2 c2PriorState).1, ?_⟩
  have h := (C2_setMinimumChange_amended 2 c2PriorState).2.2 (by decide)
  rw [h]; decide

/-! ## Claim C4: the enabled-implies-nonnegative-delta invariant -/

/-- C4 counterexample: from the default-constructed input (delta = -1,
detection disabled), a single enableChangeDetection(true) call reaches a
state with the enabled flag true and a negative stored delta, refuting the
claimed invariant for interleavings that include enable-change-detection. -/
theorem C4_counterexample :
    (enableChangeDetection true defaultInputState).changeDetectionEnabled = true ∧
      (enableChangeDetection true defaultInputState).delta < 0 := by
  constructor
  · rfl
  · decide

/-- C4 (amended): the invariant (enabled flag implies stored delta >= 0)
holds in every state reached from an invariant-satisfying state by any
interleaving of setMinimumChange(d) and enableChangeDetection(false) calls;
enableChangeDetection(true) is the sole operation that can violate it. -/
theorem C4_invariant_amended (ops : List ConfigOp) (s : InputState)
    (h0 : s.changeDetectionEnabled = true → 0 ≤ s.delta)
    (hops : ConfigOp.enable true ∉ ops) :
    (ops.foldl applyConfigOp s).changeDetectionEnabled = true →
      0 ≤ (ops.foldl applyConfigOp s).delta := by
  induction ops generalizing s with
  | nil => exact h0
  | cons op rest ih =>
    simp only [List.foldl_cons]
    have hop : op ≠ ConfigOp.enable true := by
      intro h; exact hops (h ▸ List.mem_cons_self op rest)
    have hrest : ConfigOp.enable true ∉ rest := fun h =>
      hops (List.mem_cons_of_mem op h)
    refine ih (applyConfigOp s op) ?_ hrest
    cases op with
    | setMin d =>
      intro henb
      simp only [applyConfigOp] at henb ⊢
      by_cases hd : d < 0
      · rw [(setMinimumChange_spec d s).2.1 hd] at henb
        exact absurd henb (by decide)
      · rw [(setMinimumChange_spec d s).1]
        exact not_lt.mp hd
    | enable b =>
      cases b with
      | false =>
        intro henb
        simp [applyConfigOp, enableChangeDetection] at henb
      | true => exact absurd rfl hop

/-- C4 witness: the amended invariant evaluated on the concrete run
setMinimumChange(1); enableChangeDetection(false) from the default state. -/
theorem C4_amended_witness :
    (defaultInputState.changeDetectionEnabled = true → 0 ≤ defaultInputState.delta) ∧
    ConfigOp.enable true ∉ [ConfigOp.setMin 1, ConfigOp.enable false] ∧
    (([ConfigOp.setMin 1, ConfigOp.enable false].foldl applyConfigOp
        defaultInputState).changeDetectionEnabled = true →
      0 ≤ ([ConfigOp.setMin 1, ConfigOp.enable false].foldl applyConfigOp
        defaultInputState).delta) :=
  ⟨by decide, by decide,
   C4_invariant_amended [ConfigOp.setMin 1, ConfigOp.enable false]
     defaultInputState (by decide) (by decide)⟩

/-! ## Claim C5: the notification callback guard -/

/-- C5: the wrapper installed by register-notification-callback invokes the
user callback exactly when is-updated() reports true at the dispatch point
(first conjunct: an invocation happens iff the flag is true), and any
invocation passes exactly the update timestamp to a callback whose only
argument is the time, never the value (second conjunct, for an arbitrary
result type). -/
theorem C5_notification_guard {α : Type} (cb : Rat → α) (u : Bool) (t : Rat) :
    (registerNotificationWrapper cb u t).isSome = u ∧
    (registerNotificationWrapper cb u t).getD (cb t) = cb t := by
  cases u <;> simp [registerNotificationWrapper]

/-! ## Claim C6: dispatch ordering of typed and notification callbacks -/

/-- C6: in a cycle with an observable update and both a typed callback and
a notification callback installed, both fire, and the notification callback
runs after the typed callback. -/
theorem C6_dispatch_order (hasTypedCb hasNotifyCb updObservable : Bool)
    (h1 : hasTypedCb = true) (h2 : hasNotifyCb = true)
    (h3 : updObservable = true) :
    dispatchInputCycle hasTypedCb hasNotifyCb updObservable =
      [CallbackKind.typed, CallbackKind.notify] := by
  subst h1; subst h2; subst h3; rfl

/-- C6 witness: the dispatch list with both callbacks installed and an
observable update. -/
theorem C6_dispatch_order_witness :
    dispatchInputCycle true true true = [CallbackKind.typed, CallbackKind.notify] :=
  C6_dispatch_order true true true rfl rfl rfl

/-! ## Claim C8: named point read as a string -/

/-- C8: converting a named-point-tagged stored value to a string yields the
string field of the named point and never a rendering of its numeric field,
and getValueRefImpl at a string destination returns the name field while
leaving the stored named point unconverted. -/
theorem C8_namedpoint_string (np : NamedPoint) :
    valueConvert (defV.NP np) PrimaryType.pString = defV.S np.name ∧
    getValueRefImpl PrimaryType.pString (defV.NP np) =
      (defV.S np.name, defV.NP np) := by
  exact ⟨rfl, rfl⟩

/-! ## Claim C9: getValue always clears hasUpdate -/

/-- C9: every call of getValue for a primary destination sets the hasUpdate
flag to false before returning, on every control path, including the path
with no pending publication. -/
theorem C9_getValue_clears_hasUpdate (pt : PrimaryType) (s : InputState) :
    (getValue_impl pt s).2.hasUpdate = false := rfl

/-! ## Claim C1: change detection governs replacement of lastValue -/

/-- C1: with change detection enabled, a non-negative delta, and a pending
publication, the stored lastValue is replaced by the decoded candidate
exactly when the change detector returns true for (stored value, decoded
value, delta); when the detector returns false the stored value is retained
unchanged by getValue, the getValue reader receives the retained stored
value, and the getValueRef reader receives the view of the retained stored
value.  On a detected change, getValueRef also stores the decoded
candidate (then converted in place to the requested tag). -/
theorem C1_change_detection (pt : PrimaryType) (s : InputState)
    (hcd : s.changeDetectionEnabled = true) (hd : 0 ≤ s.delta)
    (hupd : s.fedIsUpdated = true) :
    (changeDetected s.lastValue (decodedCandidate pt s) s.delta = true →
      (getValue_impl pt s).2.lastValue = decodedCandidate pt s ∧
      (getValueRef pt s).2.lastValue =
        (getValueRefImpl pt (decodedCandidate pt s)).2) ∧
    (changeDetected s.lastValue (decodedCandidate pt s) s.delta = false →
      (getValue_impl pt s).2.lastValue = s.lastValue ∧
      (getValue_impl pt s).1 = valueExtract s.lastValue pt ∧
      (getValueRef pt s).1 = (getValueRefImpl pt s.lastValue).1) := by
  have hg : (s.fedIsUpdated || allowDirectFederateUpdate s) = true := by
    rw [hupd]; rfl
  have hcd' : (loadSourceInfo s).changeDetectionEnabled = true := by
    rw [loadSourceInfo_changeDetectionEnabled]; exact hcd
  constructor
  · intro hch
    have hch' : changeDetected (loadSourceInfo s).lastValue
        (decodePending pt (loadSourceInfo s)) (loadSourceInfo s).delta = true := by
      rw [loadSourceInfo_lastValue, loadSourceInfo_delta]; exact hch
    have hcore : getValueCore pt s =
        (decodePending pt (loadSourceInfo s),
         { loadSourceInfo s with lastValue := decodePending pt (loadSourceInfo s) }) := by
      unfold getValueCore
      rw [if_pos hg, if_pos hcd', if_pos hch']
    have hrefcore : getValueRefCore pt s =
        { loadSourceInfo s with lastValue := decodePending pt (loadSourceInfo s) } := by
      unfold getValueRefCore
      rw [if_pos hg, if_pos hcd', if_pos hch']
    constructor
    · show (getValueCore pt s).2.lastValue = _
      rw [hcore]
      rfl
    · show (getValueRefImpl pt (getValueRefCore pt s).lastValue).2 = _
      rw [hrefcore]
      rfl
  · intro hch
    have hch' : ¬(changeDetected (loadSourceInfo s).lastValue
        (decodePending pt (loadSourceInfo s)) (loadSourceInfo s).delta = true) := by
      rw [loadSourceInfo_lastValue, loadSourceInfo_delta]
      show ¬(changeDetected s.lastValue (decodedCandidate pt s) s.delta = true)
      simp [hch]
    have hcore : getValueCore pt s =
        (valueExtract (loadSourceInfo s).lastValue pt, loadSourceInfo s) := by
      unfold getValueCore
      rw [if_pos hg, if_pos hcd', if_neg hch']
    have hrefcore : getValueRefCore pt s = loadSourceInfo s := by
      unfold getValueRefCore
      rw [if_pos hg, if_pos hcd', if_neg hch']
    refine ⟨?_, ?_, ?_⟩
    · show (getValueCore pt s).2.lastValue = _
      rw [hcore, loadSourceInfo_lastValue]
    · show (getValueCore pt s).1 = _
      rw [hcore, loadSourceInfo_lastValue]
    · show (getValueRefImpl pt (getValueRefCore pt s).lastValue).1 = _
      rw [hrefcore, loadSourceInfo_lastValue]

/-- A concrete input for the C1 witness: change detection enabled with
delta 1, an integer-tagged stored value, and a pending double publication
(differing tags, so the detector reports a change). -/
def c1State : InputState :=
  { defaultInputState with
    injectionType := DataType.dt PrimaryType.pDouble,
    changeDetectionEnabled := true,
    delta := 1,
    lastValue := defV.I 0,
    fedIsUpdated := true,
    pendingRaw := defV.D 3 }

/-- C1 witness: the theorem evaluated on the concrete input; the detector
fires and the stored value becomes the decoded double 3. -/
theorem C1_witness :
    c1State.changeDetectionEnabled = true ∧ (0 : Rat) ≤ c1State.delta ∧
      c1State.fedIsUpdated = true ∧
      changeDetected c1State.lastValue
        (decodedCandidate PrimaryType.pDouble c1State) c1State.delta = true ∧
      (getValue_impl PrimaryType.pDouble c1State).2.lastValue = defV.D 3 := by
  refine ⟨rfl, by decide, rfl, by decide, ?_⟩
  have h :=
    ((C1_change_detection PrimaryType.pDouble c1State rfl (by decide) rfl).1
      (by decide)).1
  rw [h]; decide

/-! ## Claim C3: getValue versus getValueRef -/

/-- With no applicable unit bridge, decoding the pending buffer is just the
section 4.1 conversion of the decoded value, provided the buffer decodes at
the injection type. -/
theorem decodePending_no_bridge (pt : PrimaryType) (s : InputState)
    (hcoh : s.injectionType = DataType.dt (tagOf s.pendingRaw))
    (hunit : s.inputUnits = none ∨ s.outputUnits = none ∨
      (s.injectionType ≠ DataType.dt PrimaryType.pDouble ∧
       s.injectionType ≠ DataType.dt PrimaryType.pInt)) :
    decodePending pt s = valueConvert s.pendingRaw pt := by
  unfold decodePending
  by_cases h1 : s.injectionType = DataType.dt PrimaryType.pDouble
  · rw [if_pos h1]
    have htag : tagOf s.pendingRaw = PrimaryType.pDouble :=
      DataType.dt.inj (hcoh.symm.trans h1)
    obtain ⟨x, hx⟩ := eq_D_of_tag htag
    have hu : s.inputUnits = none ∨ s.outputUnits = none := by
      rcases hunit with h | h | ⟨hne, _⟩
      · exact Or.inl h
      · exact Or.inr h
      · exact absurd h1 hne
    rw [hx]
    rcases hu with h | h
    · rw [h]
      cases s.outputUnits <;> rfl
    · rw [h]
      cases s.inputUnits <;> rfl
  · rw [if_neg h1]
    by_cases h2 : s.injectionType = DataType.dt PrimaryType.pInt
    · rw [if_pos h2]
      have htag : tagOf s.pendingRaw = PrimaryType.pInt :=
        DataType.dt.inj (hcoh.symm.trans h2)
      obtain ⟨n, hn⟩ := eq_I_of_tag htag
      have hu : s.inputUnits = none ∨ s.outputUnits = none := by
        rcases hunit with h | h | ⟨_, hne⟩
        · exact Or.inl h
        · exact Or.inr h
        · exact absurd h2 hne
      rw [hn]
      rcases hu with h | h
      · rw [h]
        cases s.outputUnits <;> rfl
      · rw [h]
        cases s.inputUnits <;> rfl
    · rw [if_neg h2]
      rfl

/-- C3 (amended): getValue and getValueRef return the same value for the
same pending raw buffer provided change detection is enabled, or no unit
bridge applies (an absent input or output unit, or an injection type other
than double and int); without this proviso getValueRef skips the unit
bridge (see the counterexample). -/
theorem C3_read_paths_amended (pt : PrimaryType) (s : InputState)
    (hcoh : s.injectionType = DataType.dt (tagOf s.pendingRaw))
    (hok : s.changeDetectionEnabled = true ∨ s.inputUnits = none ∨
      s.outputUnits = none ∨
      (s.injectionType ≠ DataType.dt PrimaryType.pDouble ∧
       s.injectionType ≠ DataType.dt PrimaryType.pInt)) :
    (getValue_impl pt s).1 = (getValueRef pt s).1 := by
  have hL : loadSourceInfo s = s := loadSourceInfo_of_known hcoh
  show (getValueCore pt s).1 =
    (getValueRefImpl pt (getValueRefCore pt s).lastValue).1
  rw [getValueRefImpl_fst]
  unfold getValueCore getValueRefCore
  rw [hL]
  by_cases hg : (s.fedIsUpdated || allowDirectFederateUpdate s) = true
  · simp only [if_pos hg]
    by_cases hcd : s.changeDetectionEnabled = true
    · simp only [if_pos hcd]
      by_cases hch : changeDetected s.lastValue (decodePending pt s) s.delta = true
      · simp only [if_pos hch]
        show decodePending pt s = valueConvert (decodePending pt s) pt
        exact (valueConvert_of_tag_eq (tagOf_decodePending pt s)).symm
      · simp only [if_neg hch]
        rfl
    · simp only [if_neg hcd]
      show decodePending pt s = valueConvert s.pendingRaw pt
      apply decodePending_no_bridge pt s hcoh
      rcases hok with h | h
      · exact absurd h hcd
      · exact h
  · simp only [if_neg hg]
    rfl

/-- The meter, as a precise unit for the C3 counterexample. -/
def meterUnit : PreciseUnit := ⟨1, 0, 1⟩

/-- The kilometer, as a precise unit for the C3 counterexample. -/
def kilometerUnit : PreciseUnit := ⟨1000, 0, 1⟩

/-- A concrete input for the C3 counterexample: change detection disabled,
a pending double publication of 1500, input units of meters and output
units of kilometers. -/
def c3State : InputState :=
  { defaultInputState with
    injectionType := DataType.dt PrimaryType.pDouble,
    fedIsUpdated := true,
    pendingRaw := defV.D 1500,
    inputUnits := some meterUnit,
    outputUnits := some kilometerUnit }

/-- C3 counterexample: on the same pending buffer (1500 meters read in
kilometers, change detection disabled), getValue returns the bridged value
1.5 while getValueRef returns the unbridged 1500, so the two read paths are
not observationally equivalent. -/
theorem C3_counterexample :
    (getValue_impl PrimaryType.pDouble c3State).1 = defV.D (3 / 2) ∧
    (getValueRef PrimaryType.pDouble c3State).1 = defV.D 1500 ∧
    (getValue_impl PrimaryType.pDouble c3State).1 ≠
      (getValueRef PrimaryType.pDouble c3State).1 := by
  have h1 : (getValue_impl PrimaryType.pDouble c3State).1 = defV.D (3 / 2) := by
    show (getValueCore PrimaryType.pDouble c3State).1 = _
    have hL : loadSourceInfo c3State = c3State := loadSourceInfo_of_known rfl
    unfold getValueCore
    rw [hL]
    norm_num [c3State, defaultInputState, allowDirectFederateUpdate,
      decodePending, valueExtract, valueConvert, tagOf, doubleExtractAndConvert,
      unitConvert, toDouble, meterUnit, kilometerUnit]
  have h2 : (getValueRef PrimaryType.pDouble c3State).1 = defV.D 1500 := by
    decide
  refine ⟨h1, h2, ?_⟩
  rw [h1, h2]
  intro h
  rw [defV.D.injEq] at h
  norm_num at h

/-- A concrete input for the C3 witness: a string publication with no units
and change detection disabled. -/
def c3WitnessState : InputState :=
  { defaultInputState with
    injectionType := DataType.dt PrimaryType.pString,
    fedIsUpdated := true,
    pendingRaw := defV.S "hello" }

/-- C3 witness: the amended equivalence evaluated on a concrete input with
no unit bridge. -/
theorem C3_amended_witness :
    c3WitnessState.injectionType =
      DataType.dt (tagOf c3WitnessState.pendingRaw) ∧
    c3WitnessState.inputUnits = none ∧
    (getValue_impl PrimaryType.pString c3WitnessState).1 =
      (getValueRef PrimaryType.pString c3WitnessState).1 :=
  ⟨rfl, rfl,
   C3_read_paths_amended PrimaryType.pString c3WitnessState rfl
     (Or.inr (Or.inl rfl))⟩

/-! ## Claim C7: the typed callback sees the already-updated value -/

/-- The state after a getValue that stored the decoded candidate. -/
def afterStore (pt : PrimaryType) (s : InputState) : InputState :=
  { loadSourceInfo s with
    lastValue := decodePending pt (loadSourceInfo s), hasUpdate := false }

/-- The state after a getValue that retained the stored value. -/
def afterRetain (s : InputState) : InputState :=
  { loadSourceInfo s with hasUpdate := false }

/-- The state after a getValue that saw no pending update. -/
def afterNoUpdate (s : InputState) : InputState :=
  { s with hasUpdate := false }

/-- Reading an input twice in a row returns the same value: the second read
either sees no pending update and extracts the freshly stored value, or
re-decodes the same pending buffer to the same candidate, which either is
detected unchanged against itself or replaces the stored value by itself. -/
theorem getValue_read_stable (pt : PrimaryType) (s : InputState) :
    (getValue_impl pt (getValue_impl pt s).2).1 = (getValue_impl pt s).1 := by
  show (getValueCore pt { (getValueCore pt s).2 with hasUpdate := false }).1 =
    (getValueCore pt s).1
  have hval : valueConvert (decodePending pt (loadSourceInfo s)) pt =
      decodePending pt (loadSourceInfo s) :=
    valueConvert_of_tag_eq (tagOf_decodePending pt (loadSourceInfo s))
  by_cases hg : (s.fedIsUpdated || allowDirectFederateUpdate s) = true
  case neg =>
    have hfed : s.fedIsUpdated = false := by
      revert hg; cases s.fedIsUpdated <;> simp
    have hcore : getValueCore pt s = (valueExtract s.lastValue pt, s) := by
      unfold getValueCore; rw [if_neg hg]
    rw [hcore]
    show (getValueCore pt (afterNoUpdate s)).1 = valueExtract s.lastValue pt
    have hg2 : ¬(((afterNoUpdate s).fedIsUpdated ||
        allowDirectFederateUpdate (afterNoUpdate s)) = true) := by
      simp [afterNoUpdate, allowDirectFederateUpdate, hfed]
    unfold getValueCore
    rw [if_neg hg2]
    rfl
  case pos =>
    by_cases hcd : s.changeDetectionEnabled = true
    case pos =>
      have hfed : s.fedIsUpdated = true := by
        have had : allowDirectFederateUpdate s = false := by
          simp [allowDirectFederateUpdate, hcd]
        rw [had, Bool.or_false] at hg
        exact hg
      have hcd' : (loadSourceInfo s).changeDetectionEnabled = true := by
        rw [loadSourceInfo_changeDetectionEnabled]; exact hcd
      by_cases hch : changeDetected (loadSourceInfo s).lastValue
          (decodePending pt (loadSourceInfo s)) (loadSourceInfo s).delta = true
      case pos =>
        have hcore : getValueCore pt s =
            (decodePending pt (loadSourceInfo s),
             { loadSourceInfo s with
               lastValue := decodePending pt (loadSourceInfo s) }) := by
          unfold getValueCore
          rw [if_pos hg, if_pos hcd', if_pos hch]
        rw [hcore]
        show (getValueCore pt (afterStore pt s)).1 =
          decodePending pt (loadSourceInfo s)
        have hL2 : loadSourceInfo (afterStore pt s) = afterStore pt s :=
          loadSourceInfo_stable s _ _
        have hg2 : (((afterStore pt s).fedIsUpdated ||
            allowDirectFederateUpdate (afterStore pt s)) = true) := by
          simp [afterStore, allowDirectFederateUpdate, hfed]
        have hcd2 : (loadSourceInfo (afterStore pt s)).changeDetectionEnabled =
            true := by
          rw [hL2]
          show (loadSourceInfo s).changeDetectionEnabled = true
          exact hcd'
        by_cases hch2 : changeDetected
            (loadSourceInfo (afterStore pt s)).lastValue
            (decodePending pt (loadSourceInfo (afterStore pt s)))
            (loadSourceInfo (afterStore pt s)).delta = true
        case pos =>
          have hcore2 : (getValueCore pt (afterStore pt s)).1 =
              decodePending pt (loadSourceInfo (afterStore pt s)) := by
            unfold getValueCore
            rw [if_pos hg2, if_pos hcd2, if_pos hch2]
          rw [hcore2, hL2]
          rfl
        case neg =>
          have hcore2 : (getValueCore pt (afterStore pt s)).1 =
              valueExtract (loadSourceInfo (afterStore pt s)).lastValue pt := by
            unfold getValueCore
            rw [if_pos hg2, if_pos hcd2, if_neg hch2]
          rw [hcore2, hL2]
          exact hval
      case neg =>
        have hcore : getValueCore pt s =
            (valueExtract (loadSourceInfo s).lastValue pt, loadSourceInfo s) := by
          unfold getValueCore
          rw [if_pos hg, if_pos hcd', if_neg hch]
        rw [hcore]
        show (getValueCore pt (afterRetain s)).1 =
          valueExtract (loadSourceInfo s).lastValue pt
        have hL2 : loadSourceInfo (afterRetain s) = afterRetain s :=
          loadSourceInfo_stable s _ _
        have hg2 : (((afterRetain s).fedIsUpdated ||
            allowDirectFederateUpdate (afterRetain s)) = true) := by
          simp [afterRetain, allowDirectFederateUpdate, hfed]
        have hcd2 : (loadSourceInfo (afterRetain s)).changeDetectionEnabled =
            true := by
          rw [hL2]
          show (loadSourceInfo s).changeDetectionEnabled = true
          exact hcd'
        have hch2 : ¬(changeDetected
            (loadSourceInfo (afterRetain s)).lastValue
            (decodePending pt (loadSourceInfo (afterRetain s)))
            (loadSourceInfo (afterRetain s)).delta = true) := by
          rw [hL2]
          show ¬(changeDetected (loadSourceInfo s).lastValue
            (decodePending pt (loadSourceInfo s)) (loadSourceInfo s).delta = true)
          exact hch
        have hcore2 : (getValueCore pt (afterRetain s)).1 =
            valueExtract (loadSourceInfo (afterRetain s)).lastValue pt := by
          unfold getValueCore
          rw [if_pos hg2, if_pos hcd2, if_neg hch2]
        rw [hcore2, hL2]
        rfl
    case neg =>
      have hcdL : ¬((loadSourceInfo s).changeDetectionEnabled = true) := by
        rw [loadSourceInfo_changeDetectionEnabled]; exact hcd
      have hcore : getValueCore pt s =
          (decodePending pt (loadSourceInfo s),
           { loadSourceInfo s with
             lastValue := decodePending pt (loadSourceInfo s) }) := by
        unfold getValueCore
        rw [if_pos hg, if_neg hcdL]
      rw [hcore]
      show (getValueCore pt (afterStore pt s)).1 =
        decodePending pt (loadSourceInfo s)
      have hL2 : loadSourceInfo (afterStore pt s) = afterStore pt s :=
        loadSourceInfo_stable s _ _
      have hcd2 : ¬((loadSourceInfo (afterStore pt s)).changeDetectionEnabled =
          true) := by
        rw [hL2]
        show ¬((loadSourceInfo s).changeDetectionEnabled = true)
        exact hcdL
      cases hfed : s.fedIsUpdated with
      | true =>
        have hg2 : (((afterStore pt s).fedIsUpdated ||
            allowDirectFederateUpdate (afterStore pt s)) = true) := by
          simp [afterStore, allowDirectFederateUpdate, hfed]
        have hcore2 : (getValueCore pt (afterStore pt s)).1 =
            decodePending pt (loadSourceInfo (afterStore pt s)) := by
          unfold getValueCore
          rw [if_pos hg2, if_neg hcd2]
        rw [hcore2, hL2]
        rfl
      | false =>
        have hg2 : ¬(((afterStore pt s).fedIsUpdated ||
            allowDirectFederateUpdate (afterStore pt s)) = true) := by
          simp [afterStore, allowDirectFederateUpdate, hfed]
        have hcore2 : (getValueCore pt (afterStore pt s)).1 =
            valueExtract (afterStore pt s).lastValue pt := by
          unfold getValueCore
          rw [if_neg hg2]
        rw [hcore2]
        exact hval

/-- C7: when the typed callback is dispatched by InputT::handleCallback,
the argument handed to the callback is the freshly read value, the state in
which the callback body runs is the post-read state with the already
updated stored value, and reading the input from inside the callback yields
exactly the value passed to it. -/
theorem C7_callback_sees_update (pt : PrimaryType) (s : InputState) (t : Rat) :
    (handleCallback pt s t).1.1 = (getValue_impl pt s).1 ∧
    (handleCallback pt s t).2 = (getValue_impl pt s).2 ∧
    (getValue_impl pt (handleCallback pt s t).2).1 = (handleCallback pt s t).1.1 :=
  ⟨rfl, rfl, getValue_read_stable pt s⟩

/-! ## Claim C10: getValueRef converts in place and keeps hasUpdate -/

/-- C10: after getValueRef the stored tagged value carries the primary tag
of the requested type, except for a string request on a named-point-tagged
stored value, which is left unconverted; and unlike getValue, getValueRef
leaves the hasUpdate flag untouched. -/
theorem C10_getValueRef_frame (pt : PrimaryType) (s : InputState) :
    (getValueRef pt s).2.hasUpdate = s.hasUpdate ∧
    (tagOf (getValueRef pt s).2.lastValue = pt ∨
      (pt = PrimaryType.pString ∧
        tagOf (getValueRef pt s).2.lastValue = PrimaryType.pNamedPoint)) := by
  constructor
  · show (getValueRefCore pt s).hasUpdate = s.hasUpdate
    exact getValueRefCore_hasUpdate pt s
  · show tagOf (getValueRefImpl pt (getValueRefCore pt s).lastValue).2 = pt ∨ _
    exact getValueRefImpl_tag pt (getValueRefCore pt s).lastValue

end Helics
